import Mathlib

/-!
Verification of the skylight event-notification library (observer.go, option.go).

Shallow embedding conventions:
* `Level` is Go's `type Level int`, so it is modelled as `Int`, with the
  declared constants `LevelNone = 0 .. LevelPanic = 7`.
* Go `map[string]any` is modelled as an association list with unique-key
  map assignment (`Fields.set`) and key lookup (`Fields.get`); values are
  the small sum type `GoVal`.
* Go `time.Time` is modelled as `Nat` (0 is the zero time); `time.Now()`
  and the nanoid generator are external inputs, so `newEvent` and `Emit`
  take the current time (and `newEvent` the freshly generated id) as
  explicit parameters.
* The `sync.Pool` is modelled by passing the acquired pooled instance
  (of arbitrary prior state) to `newEvent` explicitly; `eventPool.Put`
  has no effect on any modelled state, so release is reported in
  `EmitResult.released` instead.
* Go nil pointers are `Option`; a nil-pointer dereference (Emit on an
  event whose client pointer is nil, possible only for hand-built
  events) is modelled by an outer `Option` returning `none`.
* Observer handlers receive `*Event` in Go and may mutate the event
  (the standard logger does, through map aliasing); they are modelled as
  `EventData → EventData` state transformers.  Their external side
  effects (the logrus sink calls) are outside the modelled state.
* `EventData` is the client-independent part of an event; `Event` pairs
  it with the owning-client pointer.  The split breaks the Go pointer
  cycle Event → Client → Observer → Event.
-/

/-- Go `type Level int` (observer.go): levels are plain machine integers. -/
abbrev Level := Int

def LevelNone : Level := 0
def LevelTrace : Level := 1
def LevelDebug : Level := 2
def LevelInfo : Level := 3
def LevelWarn : Level := 4
def LevelError : Level := 5
def LevelFatal : Level := 6
def LevelPanic : Level := 7

/-- Values stored in an event's field map (`any` in Go, restricted to the
payload shapes the library itself produces: numbers and strings). -/
inductive GoVal where
  | num : Int → GoVal
  | str : String → GoVal
deriving DecidableEq

/-- Go `type Fields map[string]any`, as an association list. -/
abbrev Fields := List (String × GoVal)

/-- Go map assignment `m[k] = v`: overwrite the binding of `k` if present,
otherwise add one. -/
def Fields.set : Fields → String → GoVal → Fields
  | [], k, v => [(k, v)]
  | (k', v') :: rest, k, v =>
    if k' == k then (k, v) :: rest else (k', v') :: Fields.set rest k v

/-- Go map lookup `m[k]`. -/
def Fields.get (f : Fields) (k : String) : Option GoVal :=
  (f.find? (fun p => p.1 == k)).map (fun p => p.2)

/-- The client-independent state of an `Event` (observer.go): every field
of the Go struct except the owning-client pointer `c`. -/
structure EventData where
  closed : Bool
  id : String
  createdAt : Nat
  emittedAt : Nat
  level : Level
  message : String
  topic : String
  parentID : String
  fields : Fields

/-- Go `type Observer struct`: an id (zero value `""` unless set inside
the package), a condition and a handler. -/
structure Observer where
  id : String
  cond : EventData → Bool
  handler : EventData → EventData

/-- Go `type Client struct`: minimum level and ordered observer list. -/
structure Client where
  level : Level
  observers : List Observer

/-- Go `type Event struct`: the event data together with the owning-client
pointer `c` (nil for a zero-value instance fresh from the pool). -/
structure Event where
  data : EventData
  c : Option Client

/-- The zero-value `&Event{}` produced by `eventPool.New`. -/
def zeroEvent : Event :=
  { data := { closed := false, id := "", createdAt := 0, emittedAt := 0,
              level := 0, message := "", topic := "", parentID := "",
              fields := [] },
    c := none }

/-- `WildcardObserver` (observer.go): condition always true. -/
def WildcardObserver (handler : EventData → EventData) : Observer :=
  { id := "", cond := fun _ => true, handler := handler }

/-- `TopicObserver` (observer.go): condition `e.topic == topic`. -/
def TopicObserver (topic : String) (handler : EventData → EventData) : Observer :=
  { id := "", cond := fun e => e.topic == topic, handler := handler }

/-- `LevelObserver` (observer.go): condition `e.level <= level`. -/
def LevelObserver (level : Level) (handler : EventData → EventData) : Observer :=
  { id := "", cond := fun e => decide (e.level ≤ level), handler := handler }

/-- `New(opts...)` before options are applied: default level Info, no
observers (options are plain mutations modelled by the `With*` functions). -/
def Client.new : Client :=
  { level := LevelInfo, observers := [] }

/-- `(*Client).WithObserver`: nil-safe append to the observer list. -/
def Client.WithObserver (c : Option Client) (os : List Observer) : Option Client :=
  match c with
  | none => none
  | some cl => some { cl with observers := cl.observers ++ os }

/-- `(*Client).WithLevel`: nil-safe replacement of the minimum level. -/
def Client.WithLevel (c : Option Client) (level : Level) : Option Client :=
  match c with
  | none => none
  | some cl => some { cl with level := level }

/-- The handler installed by `WithStandardLogger` (observer.go lines
143-172), restricted to its effect on the event itself: the local
`fields` variable aliases `e.fields` when that map is non-empty, so the
`fields["parentID"] = e.parentID` assignment mutates the event; the
logrus sink call it then performs is an external effect. -/
def standardLoggerHandler (d : EventData) : EventData :=
  if d.fields.isEmpty then d
  else if d.parentID != "" then
    { d with fields := Fields.set d.fields "parentID" (GoVal.str d.parentID) }
  else d

/-- The built-in observer registered by `WithStandardLogger`: reserved id
"logger", wildcard condition. -/
def loggerObserver : Observer :=
  { id := "logger", cond := fun _ => true, handler := standardLoggerHandler }

/-- `(*Client).WithStandardLogger` (observer.go lines 127-177): nil-safe;
appends the "logger" observer unless one with that id is already present. -/
def Client.WithStandardLogger (c : Option Client) : Option Client :=
  match c with
  | none => none
  | some cl =>
    if cl.observers.any (fun o => o.id == "logger") then some cl
    else some { cl with observers := cl.observers ++ [loggerObserver] }

/-- `newEvent(level, msg, c)` (observer.go lines 383-400).  `freshId` is
the nanoid generated for this call, `now` the current time, and `pooled`
the instance returned by `eventPool.Get()` (arbitrary prior state). -/
def newEvent (level : Level) (msg : String) (c : Option Client)
    (freshId : String) (now : Nat) (pooled : Event) : Option Event :=
  match c with
  | none => none
  | some cl =>
    if level < cl.level then none
    else
      some { pooled with
        data := { pooled.data with
          closed := false, id := freshId, createdAt := now, emittedAt := 0,
          level := level, message := msg, topic := "", parentID := "",
          fields := [] },
        c := some cl }

/-- `(*Event).ParentID` (observer.go): nil-safe parentID setter. -/
def Event.ParentID (e : Option Event) (id : String) : Option Event :=
  match e with
  | none => none
  | some ev => some { ev with data := { ev.data with parentID := id } }

/-- `newChildEvent(level, msg, e)` (observer.go lines 402-408): filter on
the parent's client, create via `newEvent` with that client, then set
`parentID` to the parent's id. -/
def newChildEvent (level : Level) (msg : String) (e : Option Event)
    (freshId : String) (now : Nat) (pooled : Event) : Option Event :=
  match e with
  | none => none
  | some pe =>
    match pe.c with
    | none => none
    | some cl =>
      if level < cl.level then none
      else Event.ParentID (newEvent level msg (some cl) freshId now pooled) pe.data.id

/-- The observer loop inside `Emit` (observer.go lines 532-536): scan the
list in order, evaluate each condition on the current event state, run
the handler when it holds.  Returns the final event state and the ids of
the observers whose handlers ran, in firing order. -/
def dispatch (d : EventData) : List Observer → EventData × List String
  | [] => (d, [])
  | o :: rest =>
    if o.cond d then
      let out := dispatch (o.handler d) rest
      (out.1, o.id :: out.2)
    else dispatch d rest

/-- The outcome of one `Emit` call: the returned pointer, the fired
observers (in order), and whether the event was released to the pool. -/
structure EmitResult where
  ret : Option Event
  log : List String
  released : Bool
deriving Inhabited

/-- `(*Event).Emit(hold...)` (observer.go lines 521-544).  The outer
`Option` is `none` exactly when the Go code dereferences a nil client
pointer (only reachable for hand-built events, never for factory ones). -/
def Event.Emit (e : Option Event) (now : Nat) (hold : Bool) : Option EmitResult :=
  match e with
  | none => some { ret := none, log := [], released := false }
  | some ev =>
    if ev.data.closed then some { ret := some ev, log := [], released := false }
    else
      match ev.c with
      | none => none
      | some cl =>
        let d := { ev.data with emittedAt := now, closed := true }
        let out := dispatch d cl.observers
        some { ret := some { ev with data := out.1 }, log := out.2,
               released := !hold }

/-- `(*Event).Fields` (observer.go lines 573-586): copy the old map, then
write every entry of the argument over it, and replace `e.fields` with
the result.  (Go iterates the argument map in unspecified order; for a
map the keys are unique, so the resulting map does not depend on that
order, and the model fixes the list order.) -/
def Fields.merge (old new : Fields) : Fields :=
  new.foldl (fun acc kv => Fields.set acc kv.1 kv.2) old

/-- `(*Event).Fields` method: nil-safe merge into the event. -/
def Event.Fields (e : Option Event) (fields : Fields) : Option Event :=
  match e with
  | none => none
  | some ev =>
    some { ev with data := { ev.data with fields := Fields.merge ev.data.fields fields } }

/-- Number of observers on a client carrying the reserved id "logger". -/
def Client.loggerCount (cl : Client) : Nat :=
  cl.observers.countP (fun o => o.id == "logger")

/-! Concrete inputs used by counterexamples and witnesses. -/

/-- A client whose minimum level is the `LevelNone` sentinel. -/
def clientNone : Client := { level := LevelNone, observers := [] }

/-- A client at the default minimum level Info with no observers. -/
def clientInfo : Client := { level := LevelInfo, observers := [] }

/-- A pooled instance still carrying state from a previous occupant. -/
def dirtyEvent : Event :=
  { data := { closed := true, id := "stale-id", createdAt := 1, emittedAt := 3,
              level := LevelError, message := "old", topic := "old-topic",
              parentID := "old-parent", fields := [("stale", GoVal.num 9)] },
    c := some clientInfo }

/-- An open event owned by `clientInfo`, used as a parent in witnesses. -/
def parentEvent : Event :=
  { data := { closed := false, id := "parent-1", createdAt := 0, emittedAt := 0,
              level := LevelWarn, message := "p", topic := "", parentID := "",
              fields := [] },
    c := some clientInfo }

/-- An open event whose field map is `{a ↦ 1}`. -/
def fieldsEvent : Event :=
  { data := { closed := false, id := "f-1", createdAt := 0, emittedAt := 0,
              level := LevelInfo, message := "f", topic := "", parentID := "",
              fields := [("a", GoVal.num 1)] },
    c := some clientInfo }

/-- A wildcard observer with an event-preserving handler. -/
def obsA : Observer := WildcardObserver (fun d => d)

/-- A topic observer for topic "t" with an event-preserving handler. -/
def obsB : Observer := TopicObserver "t" (fun d => d)

/-- A by-level observer at threshold Warn with an event-preserving handler. -/
def obsC : Observer := LevelObserver LevelWarn (fun d => d)

/-- A client at level Info with two registered observers. -/
def clientObs : Client := { level := LevelInfo, observers := [obsA, obsC] }

/-- The event `newEvent LevelError "m" (some clientObs) "e1" 3 zeroEvent`
produces. -/
def evE : Event :=
  { data := { closed := false, id := "e1", createdAt := 3, emittedAt := 0,
              level := LevelError, message := "m", topic := "", parentID := "",
              fields := [] },
    c := some clientObs }

/-! Helper lemmas about the field map and dispatch. -/

theorem Fields.get_nil (k : String) : Fields.get [] k = none := rfl

theorem Fields.get_set (f : Fields) (k k' : String) (v : GoVal) :
    Fields.get (Fields.set f k v) k' =
      if k' = k then some v else Fields.get f k' := by
  induction f with
  | nil =>
    simp only [Fields.set, Fields.get, List.find?, Fields.get_nil]
    by_cases h : k == k'
    · have he : k' = k := (beq_iff_eq.mp h).symm
      simp [h, he]
    · have he : ¬ k' = k := fun he => h (beq_iff_eq.mpr he.symm)
      simp [h, he]
  | cons hd tl ih =>
    obtain ⟨k₀, v₀⟩ := hd
    simp only [Fields.set]
    by_cases h₀ : k₀ == k
    · rw [if_pos h₀]
      have hk₀ : k₀ = k := beq_iff_eq.mp h₀
      subst hk₀
      simp only [Fields.get, List.find?]
      by_cases h' : k₀ == k'
      · have : k' = k₀ := (beq_iff_eq.mp h').symm
        simp [h', this]
      · have : ¬ k' = k₀ := fun he => h' (beq_iff_eq.mpr he.symm)
        simp [h', this]
    · rw [if_neg h₀]
      simp only [Fields.get, List.find?] at *
      by_cases h' : k₀ == k'
      · have hk : k' = k₀ := (beq_iff_eq.mp h').symm
        have : ¬ k' = k := fun he => h₀ (beq_iff_eq.mpr (hk.symm.trans he))
        simp [h', this]
      · simp only [h', cond_false]
        exact ih

theorem Fields.get_eq_none_of_not_mem (f : Fields) (k : String)
    (h : k ∉ f.map Prod.fst) : Fields.get f k = none := by
  unfold Fields.get
  rw [List.find?_eq_none.mpr]
  · rfl
  intro p hp
  exact fun hbeq => h (List.mem_map.mpr ⟨p, hp, beq_iff_eq.mp hbeq⟩)

theorem Fields.get_merge (old F : Fields) (hF : (F.map Prod.fst).Nodup)
    (k : String) :
    Fields.get (Fields.merge old F) k =
      match Fields.get F k with
      | some v => some v
      | none => Fields.get old k := by
  induction F generalizing old with
  | nil => rfl
  | cons hd tl ih =>
    obtain ⟨k₀, v₀⟩ := hd
    simp only [List.map_cons, List.nodup_cons] at hF
    obtain ⟨hk₀, htl⟩ := hF
    have hstep : Fields.merge old ((k₀, v₀) :: tl) =
        Fields.merge (Fields.set old k₀ v₀) tl := rfl
    rw [hstep, ih _ htl]
    by_cases hk : k = k₀
    · subst hk
      have h₁ : Fields.get tl k = none :=
        Fields.get_eq_none_of_not_mem tl k hk₀
      have h₂ : Fields.get ((k, v₀) :: tl) k = some v₀ := by
        simp [Fields.get, List.find?]
      rw [h₁, h₂]
      simp [Fields.get_set]
    · have h₂ : Fields.get ((k₀, v₀) :: tl) k = Fields.get tl k := by
        have : ¬ k₀ == k := fun hb => hk (beq_iff_eq.mp hb).symm
        simp [Fields.get, List.find?, this]
      rw [h₂, Fields.get_set]
      simp [hk]

theorem dispatch_closed (obs : List Observer) (d : EventData)
    (hobs : ∀ o ∈ obs, ∀ x : EventData, x.closed = true → (o.handler x).closed = true)
    (hd : d.closed = true) : (dispatch d obs).1.closed = true := by
  induction obs generalizing d with
  | nil => exact hd
  | cons o rest ih =>
    have hrest : ∀ o' ∈ rest, ∀ x : EventData, x.closed = true →
        (o'.handler x).closed = true :=
      fun o' h' => hobs o' (List.mem_cons_of_mem _ h')
    by_cases hc : o.cond d
    · simpa [dispatch, hc] using
        ih (o.handler d) hrest (hobs o (List.mem_cons_self _ _) d hd)
    · simpa [dispatch, hc] using ih d hrest hd

theorem Emit_closed (ev : Event) (h : ev.data.closed = true) (n : Nat)
    (hold : Bool) :
    Event.Emit (some ev) n hold =
      some { ret := some ev, log := [], released := false } := by
  simp [Event.Emit, h]

/-! Claim theorems. -/

/-- Claim C1 counterexample: on a client whose minimum level is `LevelNone`,
`newEvent` at level Info returns a non-nil event, refuting the claim that a
None-level client suppresses every creation. -/
theorem newEvent_clientNone_not_suppressed :
    newEvent LevelInfo "m" (some clientNone) "id1" 0 zeroEvent ≠ none := by
  intro h
  simp only [newEvent, clientNone] at h
  rw [if_neg (by decide : ¬ LevelInfo < LevelNone)] at h
  exact Option.noConfusion h

/-- Claim C1 (amended): on a client whose minimum level is `LevelNone`,
`newEvent` accepts every level at or above `LevelNone` (in particular every
declared level), because the only filter in the code is `level < c.level`
and `LevelNone = 0`; the spec's "None suppresses everything" exclusion is
not implemented by `newEvent`. -/
theorem newEvent_clientNone_accepts (cl : Client) (hcl : cl.level = LevelNone)
    (L : Level) (hL : LevelNone ≤ L) (msg freshId : String) (now : Nat)
    (pooled : Event) :
    ∃ ev, newEvent L msg (some cl) freshId now pooled = some ev := by
  have h : ¬ L < cl.level := by rw [hcl]; exact not_lt.mpr hL
  exact ⟨_, by simp only [newEvent]; rw [if_neg h]⟩

/-- Witness for C1's amended theorem at a concrete input. -/
theorem newEvent_clientNone_accepts_witness :
    ∃ ev, newEvent LevelInfo "m" (some clientNone) "id1" 0 zeroEvent = some ev :=
  newEvent_clientNone_accepts clientNone rfl LevelInfo (by decide) "m" "id1" 0
    zeroEvent

/-- Claim C4: `newEvent` returns nil exactly when the client is nil or the
requested level is below the client's minimum; otherwise it returns an
event carrying that level, that message and the owning client. -/
theorem newEvent_filter (level : Level) (msg : String) (cl : Client)
    (freshId : String) (now : Nat) (pooled : Event) :
    newEvent level msg none freshId now pooled = none ∧
    (level < cl.level → newEvent level msg (some cl) freshId now pooled = none) ∧
    (cl.level ≤ level →
      ∃ ev, newEvent level msg (some cl) freshId now pooled = some ev ∧
        ev.data.level = level ∧ ev.data.message = msg ∧ ev.c = some cl) := by
  refine ⟨rfl, fun h => by simp only [newEvent]; rw [if_pos h], fun h => ?_⟩
  have h' : ¬ level < cl.level := not_lt.mpr h
  exact ⟨_, by simp only [newEvent]; rw [if_neg h'], rfl, rfl, rfl⟩

/-- Witness for C4 at the spec's own example: a client at level Info
rejects Trace and accepts Info. -/
theorem newEvent_filter_witness :
    newEvent LevelTrace "m" (some clientInfo) "id1" 0 zeroEvent = none ∧
    ∃ ev, newEvent LevelInfo "m" (some clientInfo) "id1" 0 zeroEvent = some ev ∧
      ev.data.level = LevelInfo ∧ ev.data.message = "m" ∧ ev.c = some clientInfo :=
  ⟨(newEvent_filter LevelTrace "m" clientInfo "id1" 0 zeroEvent).2.1 (by decide),
   (newEvent_filter LevelInfo "m" clientInfo "id1" 0 zeroEvent).2.2 (by decide)⟩

/-- Claim C5: every accepted creation resets all mutable fields of the
pooled instance (closed false, emittedAt zero, topic and parentID empty,
fields a fresh empty map), assigns the freshly generated id and stamps
`createdAt`; moreover the result is completely independent of the pooled
occupant's prior state, so nothing leaks across pool recycles. -/
theorem newEvent_resets (level : Level) (msg : String) (cl : Client)
    (freshId : String) (now : Nat) (pooled ev : Event)
    (h : newEvent level msg (some cl) freshId now pooled = some ev) :
    ev.data.closed = false ∧ ev.data.emittedAt = 0 ∧ ev.data.topic = "" ∧
    ev.data.parentID = "" ∧ ev.data.fields = [] ∧ ev.data.id = freshId ∧
    ev.data.createdAt = now ∧
    ∀ pooled' : Event,
      newEvent level msg (some cl) freshId now pooled' =
        newEvent level msg (some cl) freshId now pooled := by
  simp only [newEvent] at h
  split at h
  · exact Option.noConfusion h
  · injection h with h
    subst h
    exact ⟨rfl, rfl, rfl, rfl, rfl, rfl, rfl, fun _ => rfl⟩

/-- Witness for C5 at a concrete input: creating over a dirty pooled
occupant yields a fully reset event. -/
theorem newEvent_resets_witness :
    ∃ ev, newEvent LevelWarn "m" (some clientInfo) "fresh" 5 dirtyEvent = some ev ∧
      ev.data.closed = false ∧ ev.data.emittedAt = 0 ∧ ev.data.topic = "" ∧
      ev.data.parentID = "" ∧ ev.data.fields = [] ∧ ev.data.id = "fresh" ∧
      ev.data.createdAt = 5 := by
  obtain ⟨h1, h2, h3, h4, h5, h6, h7, _⟩ :=
    newEvent_resets LevelWarn "m" clientInfo "fresh" 5 dirtyEvent _ rfl
  exact ⟨_, rfl, h1, h2, h3, h4, h5, h6, h7⟩

/-- Claim C6: the by-level observer's condition holds of an event exactly
when the event's level is at or below the threshold. -/
theorem LevelObserver_cond (T : Level) (handler : EventData → EventData)
    (d : EventData) :
    (LevelObserver T handler).cond d = true ↔ d.level ≤ T := by
  simp [LevelObserver]

/-- Claim C7: child creation from a parent with a non-nil client at an
accepted level yields an event whose `parentID` is the parent's id and
whose owning client is the parent's client; a nil parent, a nil parent
client, or a level below the client's minimum all yield nil. -/
theorem newChildEvent_correlation (level : Level) (msg : String) (pe : Event)
    (cl : Client) (freshId : String) (now : Nat) (pooled : Event) :
    newChildEvent level msg none freshId now pooled = none ∧
    (pe.c = none → newChildEvent level msg (some pe) freshId now pooled = none) ∧
    (pe.c = some cl → level < cl.level →
      newChildEvent level msg (some pe) freshId now pooled = none) ∧
    (pe.c = some cl → cl.level ≤ level →
      ∃ ce, newChildEvent level msg (some pe) freshId now pooled = some ce ∧
        ce.data.parentID = pe.data.id ∧ ce.c = pe.c) := by
  refine ⟨rfl, ?_, ?_, ?_⟩
  · intro h
    simp only [newChildEvent, h]
  · intro h hlt
    simp only [newChildEvent, h]
    rw [if_pos hlt]
  · intro h hle
    have h' : ¬ level < cl.level := not_lt.mpr hle
    have heq : newChildEvent level msg (some pe) freshId now pooled =
        Event.ParentID (newEvent level msg (some cl) freshId now pooled)
          pe.data.id := by
      simp only [newChildEvent, h]
      rw [if_neg h']
    rw [heq]
    simp only [newEvent]
    rw [if_neg h']
    simp only [Event.ParentID]
    exact ⟨_, rfl, rfl, h.symm⟩

/-- Witness for C7 at a concrete parent: a Warn child of `parentEvent`
carries the parent's id and client. -/
theorem newChildEvent_correlation_witness :
    ∃ ce, newChildEvent LevelWarn "c" (some parentEvent) "child-1" 2 zeroEvent =
        some ce ∧
      ce.data.parentID = parentEvent.data.id ∧ ce.c = parentEvent.c :=
  (newChildEvent_correlation LevelWarn "c" parentEvent clientInfo "child-1" 2
    zeroEvent).2.2.2 rfl (by decide)

/-- Claim C9: merging a field map into an event overwrites exactly the keys
present in the merged map and preserves every other existing binding. -/
theorem Event_Fields_merge (ev : Event) (F : Fields)
    (hF : (F.map Prod.fst).Nodup) :
    ∃ ev', Event.Fields (some ev) F = some ev' ∧
      ∀ k, Fields.get ev'.data.fields k =
        match Fields.get F k with
        | some v => some v
        | none => Fields.get ev.data.fields k :=
  ⟨_, rfl, fun k => Fields.get_merge ev.data.fields F hF k⟩

/-- Witness for C9 at the spec's example: fields `{a ↦ 1}` merged with
`{a ↦ 2, b ↦ 3}` yields `{a ↦ 2, b ↦ 3}`. -/
theorem Event_Fields_merge_witness :
    (∃ ev', Event.Fields (some fieldsEvent)
        [("a", GoVal.num 2), ("b", GoVal.num 3)] = some ev' ∧
      ∀ k, Fields.get ev'.data.fields k =
        match Fields.get [("a", GoVal.num 2), ("b", GoVal.num 3)] k with
        | some v => some v
        | none => Fields.get fieldsEvent.data.fields k) ∧
    ∃ ev', Event.Fields (some fieldsEvent)
        [("a", GoVal.num 2), ("b", GoVal.num 3)] = some ev' ∧
      Fields.get ev'.data.fields "a" = some (GoVal.num 2) ∧
      Fields.get ev'.data.fields "b" = some (GoVal.num 3) := by
  refine ⟨Event_Fields_merge fieldsEvent _ (by decide), ⟨_, rfl, by decide, by decide⟩⟩

/-- Claim C10: the standard sink's handler mutates the event it receives
when the event's field map is non-empty and its parentID is set — the
local fields variable aliases the event's map, so the "parentID" entry is
written into the event's own fields; with an empty field map the event's
fields are left unchanged. -/
theorem standardLoggerHandler_frame (d : EventData) :
    (d.fields ≠ [] → d.parentID ≠ "" →
      (standardLoggerHandler d).fields =
        Fields.set d.fields "parentID" (GoVal.str d.parentID) ∧
      Fields.get (standardLoggerHandler d).fields "parentID" =
        some (GoVal.str d.parentID)) ∧
    (d.fields = [] → standardLoggerHandler d = d) := by
  constructor
  · intro hne hpid
    have h₁ : d.fields.isEmpty = false := by
      cases hf : d.fields with
      | nil => exact absurd hf hne
      | cons a l => rfl
    have h₂ : (d.parentID != "") = true := bne_iff_ne.mpr hpid
    constructor
    · simp [standardLoggerHandler, h₁, h₂]
    · simp [standardLoggerHandler, h₁, h₂, Fields.get_set]
  · intro he
    simp [standardLoggerHandler, he, List.isEmpty]

/-- Witness for C10: running the handler on a concrete event with fields
`{a ↦ 1}` and parentID "p" leaves a "parentID" entry in the event's own
fields, while an event with empty fields is unchanged. -/
theorem standardLoggerHandler_frame_witness :
    Fields.get (standardLoggerHandler
        { closed := true, id := "w", createdAt := 0, emittedAt := 1,
          level := LevelInfo, message := "m", topic := "", parentID := "p",
          fields := [("a", GoVal.num 1)] }).fields "parentID" =
      some (GoVal.str "p") ∧
    standardLoggerHandler
        { closed := true, id := "w2", createdAt := 0, emittedAt := 1,
          level := LevelInfo, message := "m", topic := "", parentID := "p",
          fields := [] } =
      { closed := true, id := "w2", createdAt := 0, emittedAt := 1,
        level := LevelInfo, message := "m", topic := "", parentID := "p",
        fields := [] } :=
  ⟨(standardLoggerHandler_frame _).1 (by decide) (by decide) |>.2,
   (standardLoggerHandler_frame _).2 rfl⟩

/-- Claim C2: Emit is idempotent.  For an event created by the client
factory, the first Emit performs exactly one dispatch pass over the
client's observers, and a second Emit on its result dispatches to no
observer and returns the already-closed event unchanged; Emit on a nil
event returns nil.  The hypothesis on the observers reflects that
`closed` is an unexported field no handler outside the package can unset
(re-entrant Emit is a no-op because `closed` is already set during
dispatch). -/
theorem Emit_idempotent (level : Level) (msg : String) (cl : Client)
    (freshId : String) (now : Nat) (pooled ev : Event)
    (h : newEvent level msg (some cl) freshId now pooled = some ev)
    (hobs : ∀ o ∈ cl.observers, ∀ x : EventData, x.closed = true →
      (o.handler x).closed = true)
    (n₁ n₂ : Nat) (hold₁ hold₂ : Bool) :
    Event.Emit none n₁ hold₁ =
      some { ret := none, log := [], released := false } ∧
    ∃ ev₁, Event.Emit (some ev) n₁ hold₁ =
        some { ret := some ev₁,
               log := (dispatch { ev.data with emittedAt := n₁, closed := true }
                 cl.observers).2,
               released := !hold₁ } ∧
      Event.Emit (some ev₁) n₂ hold₂ =
        some { ret := some ev₁, log := [], released := false } := by
  refine ⟨rfl, ?_⟩
  simp only [newEvent] at h
  split at h
  · exact Option.noConfusion h
  · injection h with h
    subst h
    refine ⟨_, rfl, ?_⟩
    exact Emit_closed _ (dispatch_closed cl.observers _ hobs rfl) n₂ hold₂

/-- Witness for C2 at a concrete factory event owned by `clientObs`. -/
theorem Emit_idempotent_witness :
    Event.Emit none 7 false =
      some { ret := none, log := [], released := false } ∧
    ∃ ev₁, Event.Emit (some evE) 7 false =
        some { ret := some ev₁,
               log := (dispatch { evE.data with emittedAt := 7, closed := true }
                 clientObs.observers).2,
               released := !false } ∧
      Event.Emit (some ev₁) 9 true =
        some { ret := some ev₁, log := [], released := false } :=
  Emit_idempotent LevelError "m" clientObs "e1" 3 zeroEvent evE rfl
    (by
      intro o ho x hx
      fin_cases ho
      · exact hx
      · exact hx)
    7 9 false true

/-- Claim C3: during one dispatch pass an observer's handler runs exactly
when its condition holds of the event, and the firing order is the
registration order (the fired list is the in-order filter of the observer
list by its conditions); the hypothesis states that handlers leave the
event unchanged, the spec's reading in which conditions are pure
predicates of the one emitted event. -/
theorem dispatch_fires_iff (d : EventData) (obs : List Observer)
    (hpure : ∀ o ∈ obs, ∀ x : EventData, o.handler x = x) :
    (dispatch d obs).2 =
      (obs.filter (fun o => o.cond d)).map (fun o => o.id) := by
  induction obs with
  | nil => rfl
  | cons o rest ih =>
    have hrest : ∀ o' ∈ rest, ∀ x : EventData, o'.handler x = x :=
      fun o' h' => hpure o' (List.mem_cons_of_mem _ h')
    by_cases hc : o.cond d
    · simp [dispatch, hc, hpure o (List.mem_cons_self _ _) d, List.filter_cons,
        ih hrest]
    · simp [dispatch, hc, List.filter_cons, ih hrest]

/-- Witness for C3: with a wildcard, a topic-"t" and a Warn-threshold
observer on a topicless Warn event, exactly the wildcard and the by-level
observers fire, in registration order. -/
theorem dispatch_fires_iff_witness :
    (dispatch parentEvent.data [obsA, obsB, obsC]).2 =
      (([obsA, obsB, obsC].filter (fun o => o.cond parentEvent.data)).map
        (fun o => o.id)) ∧
    (dispatch parentEvent.data [obsA, obsB, obsC]).2 = ["", ""] :=
  ⟨dispatch_fires_iff parentEvent.data [obsA, obsB, obsC]
    (by
      intro o ho x
      fin_cases ho <;> rfl),
   by decide⟩

/-- Claim C8: attaching the standard sink is idempotent: applying it twice
equals applying it once; if a "logger" observer is already present the
call changes nothing; and starting from any client with at most one
"logger" observer (every client reachable through the public API, since
observers built outside the package carry an empty id), the result has
exactly one. -/
theorem WithStandardLogger_idempotent (cl : Client) :
    Client.WithStandardLogger (Client.WithStandardLogger (some cl)) =
      Client.WithStandardLogger (some cl) ∧
    (1 ≤ cl.loggerCount → Client.WithStandardLogger (some cl) = some cl) ∧
    (cl.loggerCount ≤ 1 →
      ∀ cl', Client.WithStandardLogger (some cl) = some cl' →
        cl'.loggerCount = 1) := by
  have hcount : ∀ c : Client,
      c.observers.any (fun o => o.id == "logger") = true ↔ 1 ≤ c.loggerCount := by
    intro c
    constructor
    · intro h
      obtain ⟨x, hx, hpx⟩ := List.any_eq_true.mp h
      exact Nat.one_le_iff_ne_zero.mpr
        (Nat.pos_iff_ne_zero.mp (List.countP_pos_iff.mpr ⟨x, hx, hpx⟩))
    · intro h
      obtain ⟨x, hx, hpx⟩ :=
        List.countP_pos_iff.mp (Nat.lt_of_lt_of_le Nat.zero_lt_one h)
      exact List.any_eq_true.mpr ⟨x, hx, hpx⟩
  by_cases hl : cl.observers.any (fun o => o.id == "logger") = true
  · have e1 : Client.WithStandardLogger (some cl) = some cl := by
      simp [Client.WithStandardLogger, hl]
    refine ⟨by rw [e1]; exact e1, fun _ => e1, fun hle cl' h' => ?_⟩
    have hc : cl' = cl := by
      rw [e1] at h'
      exact (Option.some_inj.mp h').symm
    rw [hc]
    exact Nat.le_antisymm hle ((hcount cl).mp hl)
  · have e1 : Client.WithStandardLogger (some cl) =
        some { cl with observers := cl.observers ++ [loggerObserver] } := by
      simp [Client.WithStandardLogger, hl]
    have hzero : cl.loggerCount = 0 := by
      rw [Client.loggerCount, List.countP_eq_zero]
      intro a ha hpa
      exact hl (List.any_eq_true.mpr ⟨a, ha, hpa⟩)
    have hcl₂ : Client.loggerCount
        { cl with observers := cl.observers ++ [loggerObserver] } = 1 := by
      simp only [Client.loggerCount] at hzero ⊢
      rw [List.countP_append, hzero]
      rfl
    refine ⟨?_, fun h1 => absurd h1 (by rw [hzero]; decide), fun _ cl' h' => ?_⟩
    · have h2 : ({ cl with observers := cl.observers ++ [loggerObserver] } :
          Client).observers.any (fun o => o.id == "logger") = true :=
        (hcount _).mpr (le_of_eq hcl₂.symm)
      rw [e1]
      simp [Client.WithStandardLogger, h2]
    · rw [e1] at h'
      rw [← Option.some_inj.mp h']
      exact hcl₂

/-- Witness for C8 on a freshly constructed client: two attachments equal
one, and the result carries exactly one "logger" observer. -/
theorem WithStandardLogger_idempotent_witness :
    Client.WithStandardLogger (Client.WithStandardLogger (some Client.new)) =
      Client.WithStandardLogger (some Client.new) ∧
    ∀ cl', Client.WithStandardLogger (some Client.new) = some cl' →
      cl'.loggerCount = 1 :=
  ⟨(WithStandardLogger_idempotent Client.new).1,
   (WithStandardLogger_idempotent Client.new).2.2 (by decide)⟩

